import Mathlib

/-!
Shallow embedding of src/index.js of express-graphql: the graphqlHTTP
middleware together with its helpers getGraphQLParams, canDisplayGraphiQL
and sendError. The GraphQL engine (parse, validate, getOperationAST,
execute, formatError), JSON.parse, the body decoder (parseBody) and the
GraphiQL renderer (renderGraphiQL) are external collaborators and appear
as parameters. JSON serialization whitespace (the pretty option) is not
modelled; response bodies are kept structured.
-/

namespace ExpressGraphQL

/-- A JavaScript value, abstracted to the distinctions index.js makes:
undefined, null, booleans, strings, numbers, and other values (objects,
arrays and so on), which are always truthy. -/
inductive JSVal where
  | undef
  | nullv
  | boolv (b : Bool)
  | strv (s : String)
  | numv (n : Int)
  | obj (id : Nat)
deriving DecidableEq, Repr

/-- JavaScript truthiness of a JSVal: undefined, null, false, the empty
string and zero are falsy, everything else is truthy. -/
def truthy : JSVal → Bool
  | .undef => false
  | .nullv => false
  | .boolv b => b
  | .strv s => s != ""
  | .numv n => n != 0
  | .obj _ => true

/-- The JavaScript or-operator on values: the first operand when it is
truthy, otherwise the second. -/
def jsOr (a b : JSVal) : JSVal := if truthy a then a else b

/-- Whether typeof v is string. -/
def isString : JSVal → Bool
  | .strv _ => true
  | _ => false

/-- One source of request parameters: the keys of request.query or of the
decoded body object that index.js reads (query, vars, operationName,
raw). A missing key reads as undef. -/
structure ParamSource where
  query : JSVal
  vars : JSVal
  operationName : JSVal
  raw : JSVal
deriving DecidableEq, Repr

/-- The record returned by getGraphQLParams (index.js lines 194-198). -/
structure GraphQLParams where
  query : JSVal
  vars : JSVal
  operationName : JSVal
deriving DecidableEq, Repr

/-- An error value as built by httpError(status, message). Status 0 stands
for an error object carrying no status field, which sendError then maps to
500 (the error.status-or-500 default). -/
structure HttpError where
  status : Nat
  message : String
deriving DecidableEq, Repr

/-- index.js lines 203-221, getGraphQLParams: each field is the JavaScript
or of the request.query field and the body field; a truthy string vars
value is decoded with JSON.parse (passed in as jsonParse, none modelling a
thrown decode error), and a decode failure throws
httpError(400, Variables are invalid JSON). -/
def getGraphQLParams (jsonParse : String → Option JSVal)
    (urlQ data : ParamSource) : Except HttpError GraphQLParams :=
  let query := jsOr urlQ.query data.query
  let vars := jsOr urlQ.vars data.vars
  let operationName := jsOr urlQ.operationName data.operationName
  if truthy vars && isString vars then
    match vars with
    | .strv s =>
      match jsonParse s with
      | some v => .ok { query := query, vars := v, operationName := operationName }
      | none => .error { status := 400, message := "Variables are invalid JSON." }
    | _ => .ok { query := query, vars := vars, operationName := operationName }
  else
    .ok { query := query, vars := vars, operationName := operationName }

/-- index.js lines 226-232, canDisplayGraphiQL: raw is a presence test (not
a truthiness test) on the raw key of either source, and GraphiQL may be
shown when raw is absent from both and the request prefers HTML over JSON;
acceptsHtml abstracts the content negotiation verdict of request.accepts. -/
def canDisplayGraphiQL (urlQ data : ParamSource) (acceptsHtml : Bool) : Bool :=
  let raw := urlQ.raw != JSVal.undef || data.raw != JSVal.undef
  !raw && acceptsHtml

/-- The shape of a result object as index.js inspects it: whether it has an
own data key (hasOwnProperty), the value stored under that key, and the
errors key (none models an absent key; some l models an array, which is
truthy even when empty). -/
structure JSResult (Err : Type) where
  hasDataKey : Bool
  dataVal : JSVal
  errors : Option (List Err)
deriving DecidableEq, Repr

/-- A result whose errors, when present, were mapped through formatError. -/
structure FmtResult (FErr : Type) where
  hasDataKey : Bool
  dataVal : JSVal
  errors : Option (List FErr)
deriving DecidableEq, Repr

/-- The external GraphQL engine as index.js consumes it. The schema and
rootValue configuration handles are threaded to validate and execute
unchanged and are abstract here, so they are captured inside the
collaborator functions. Err is the engine error type and FErr the record
type formatError produces; an .error value models a thrown exception or a
rejected promise. getOperationAST yields the kind string of the resolved
operation (query, mutation, subscription) or none when no operation can be
resolved. formatHttpError is the same formatError applied to an httpError
value. -/
structure Engine (Doc Err FErr : Type) where
  parse : JSVal → Except Err Doc
  validate : Doc → Except Err (List Err)
  getOperationAST : Doc → JSVal → Except Err (Option String)
  execute : Doc → JSVal → JSVal → Except Err (JSResult Err)
  formatError : Err → FErr
  formatHttpError : HttpError → FErr

/-- The argument index.js passes to the external renderGraphiQL: nothing
(line 90), query and vars (line 115), or query, vars and the
result (line 160). -/
inductive GraphiQLArgs (FErr : Type) where
  | emptyShell
  | preset (query vars : JSVal)
  | full (query vars : JSVal) (result : FmtResult FErr)
deriving DecidableEq, Repr

/-- A response body: a JSON-serialized result object (which is also the
shape of the errors-only envelope sendError builds), or GraphiQL markup
rendered from the given arguments. -/
inductive Body (FErr : Type) where
  | jsonBody (result : FmtResult FErr)
  | htmlBody (args : GraphiQLArgs FErr)
deriving DecidableEq, Repr

/-- The outgoing HTTP response: status (200 when the handler never sets
one), the Allow header when set, the Content-Type header, and the body. -/
structure Response (FErr : Type) where
  status : Nat
  allow : Option String
  contentType : String
  body : Body FErr
deriving DecidableEq, Repr

/-- index.js lines 237-243, sendError: status is error.status or 500 when
unset, and the body is a JSON envelope holding the single formatted error.
The allow argument records an Allow header set on the response just before
the call (lines 65 and 119), and none otherwise. -/
def sendError {FErr : Type} (fmtHttp : HttpError → FErr) (allow : Option String)
    (e : HttpError) : Response FErr :=
  { status := if e.status == 0 then 500 else e.status
    allow := allow
    contentType := "application/json"
    body := .jsonBody { hasDataKey := false, dataVal := .undef,
                        errors := some [fmtHttp e] } }

/-- The catch handler of index.js lines 143-144: a thrown or rejected error
becomes a result with a single-element errors list and no data key. -/
def caughtResult {Err : Type} (e : Err) : JSResult Err :=
  { hasDataKey := false, dataVal := .undef, errors := some [e] }

/-- What the promise body of index.js lines 96-144 produces: either a
resolved result (the execute result, a validation-errors result, or a
caught thrown error), or a response already sent from inside the executor
(the two branches of the GET non-query check). -/
inductive RunOut (Err FErr : Type) where
  | result (r : JSResult Err)
  | early (resp : Response FErr)
deriving Repr

/-- index.js lines 96-144: parse the query, validate the document, run the
GET-only operation check (render GraphiQL with the query preset, or answer
405 with Allow POST), then execute; every thrown error is caught into a
single-element errors result by the catch handler. -/
def runQuery {Doc Err FErr : Type} (E : Engine Doc Err FErr) (method : String)
    (urlQ data : ParamSource) (graphiql acceptsHtml : Bool)
    (p : GraphQLParams) : RunOut Err FErr :=
  match E.parse p.query with
  | .error e => .result (caughtResult e)
  | .ok documentAST =>
    match E.validate documentAST with
    | .error e => .result (caughtResult e)
    | .ok validationErrors =>
      if validationErrors.length > 0 then
        .result { hasDataKey := false, dataVal := .undef, errors := some validationErrors }
      else
        let execStep : RunOut Err FErr :=
          match E.execute documentAST p.vars p.operationName with
          | .error e => .result (caughtResult e)
          | .ok r => .result r
        if method == "GET" then
          match E.getOperationAST documentAST p.operationName with
          | .error e => .result (caughtResult e)
          | .ok (some opKind) =>
            if opKind != "query" then
              if graphiql && canDisplayGraphiQL urlQ data acceptsHtml then
                .early { status := 200, allow := none, contentType := "text/html",
                         body := .htmlBody (.preset p.query p.vars) }
              else
                .early (sendError E.formatHttpError (some "POST")
                  { status := 405,
                    message := "Can only perform a " ++ opKind ++
                      " operation from a POST request." })
            else execStep
          | .ok none => execStep
        else execStep

/-- index.js lines 145-167, the then handler: map the errors through
formatError when the errors key is present, set the status by the
own-data-key rule (200 with a data key, 400 without), then either render
GraphiQL with the full result or send the result as JSON. -/
def thenStage {Doc Err FErr : Type} (E : Engine Doc Err FErr)
    (graphiql acceptsHtml : Bool) (urlQ data : ParamSource)
    (p : GraphQLParams) (r : JSResult Err) : Response FErr :=
  let result : FmtResult FErr :=
    { hasDataKey := r.hasDataKey, dataVal := r.dataVal,
      errors := r.errors.map (List.map E.formatError) }
  let status := if r.hasDataKey then 200 else 400
  if graphiql && canDisplayGraphiQL urlQ data acceptsHtml then
    { status := status, allow := none, contentType := "text/html",
      body := .htmlBody (.full p.query p.vars result) }
  else
    { status := status, allow := none, contentType := "application/json",
      body := .jsonBody result }

/-- index.js lines 74-168, the body of the parseBody callback after a
successful body decode: extract the parameters, handle a missing query
(empty GraphiQL shell, or a thrown 400), then run the query and send the
outcome. A thrown HttpError (line 92, or line 213 inside getGraphQLParams)
is the .error case. -/
def callbackBody {Doc Err FErr : Type} (E : Engine Doc Err FErr)
    (jsonParse : String → Option JSVal) (graphiql acceptsHtml : Bool)
    (method : String) (urlQ data : ParamSource) :
    Except HttpError (Response FErr) :=
  match getGraphQLParams jsonParse urlQ data with
  | .error e => .error e
  | .ok p =>
    if !truthy p.query then
      if graphiql && canDisplayGraphiQL urlQ data acceptsHtml then
        .ok { status := 200, allow := none, contentType := "text/html",
              body := .htmlBody .emptyShell }
      else
        .error { status := 400, message := "Must provide query string." }
    else
      match runQuery E method urlQ data graphiql acceptsHtml p with
      | .early resp => .ok resp
      | .result r => .ok (thenStage E graphiql acceptsHtml urlQ data p r)

/-- Modelled from the spec: parseBody, the body-decoding collaborator, is
code of this repository that is not under src. Per the spec it delivers
either a decode error or the decoded mapping, and it invokes the handler
callback inside its own protected region, so an HttpError thrown by the
callback re-enters the callback as a decode error; index.js lines 77-79
then send any such error with sendError, surfacing protocol failures as
their own status with a single-element error list. bodyOutcome is what the
collaborator delivered. -/
def runCallback {Doc Err FErr : Type} (E : Engine Doc Err FErr)
    (jsonParse : String → Option JSVal) (graphiql acceptsHtml : Bool)
    (method : String) (urlQ : ParamSource)
    (bodyOutcome : Except HttpError ParamSource) : Response FErr :=
  match bodyOutcome with
  | .error e => sendError E.formatHttpError none e
  | .ok data =>
    match callbackBody E jsonParse graphiql acceptsHtml method urlQ data with
    | .error e => sendError E.formatHttpError none e
    | .ok resp => resp

/-- index.js lines 59-169: the middleware. A method other than GET and POST
is answered 405 with the Allow header set to GET, POST; otherwise the body
decode outcome is handled by the callback. -/
def graphqlHTTP {Doc Err FErr : Type} (E : Engine Doc Err FErr)
    (jsonParse : String → Option JSVal) (graphiql : Bool)
    (method : String) (urlQ : ParamSource) (acceptsHtml : Bool)
    (bodyOutcome : Except HttpError ParamSource) : Response FErr :=
  if method != "GET" && method != "POST" then
    sendError E.formatHttpError (some "GET, POST")
      { status := 405, message := "GraphQL only supports GET and POST requests." }
  else
    runCallback E jsonParse graphiql acceptsHtml method urlQ bodyOutcome

/-- The error list a response body carries, when any. -/
def bodyErrors {FErr : Type} : Body FErr → Option (List FErr)
  | .jsonBody r => r.errors
  | .htmlBody (.full _ _ r) => r.errors
  | .htmlBody _ => none

/-- An accepted method makes the 405 guard of line 64 pass. -/
theorem method_guard_pass {method : String}
    (hm : method = "GET" ∨ method = "POST") :
    (method != "GET" && method != "POST") = false := by
  rcases hm with h | h <;> simp [h]

/-- When the promise body resolves a result, the middleware response is the
then handler applied to that result. -/
theorem run_result_response {Doc Err FErr : Type} (E : Engine Doc Err FErr)
    (jsonParse : String → Option JSVal) (graphiql : Bool) (method : String)
    (urlQ data : ParamSource) (acceptsHtml : Bool) (p : GraphQLParams)
    (r : JSResult Err)
    (hm : method = "GET" ∨ method = "POST")
    (hp : getGraphQLParams jsonParse urlQ data = .ok p)
    (hq : truthy p.query = true)
    (hrun : runQuery E method urlQ data graphiql acceptsHtml p = .result r) :
    graphqlHTTP E jsonParse graphiql method urlQ acceptsHtml (.ok data) =
      thenStage E graphiql acceptsHtml urlQ data p r := by
  unfold graphqlHTTP runCallback callbackBody
  rw [method_guard_pass hm]
  simp [hp, hq, hrun]

/-- When the promise body answers from inside the executor, the middleware
response is that answer. -/
theorem run_early_response {Doc Err FErr : Type} (E : Engine Doc Err FErr)
    (jsonParse : String → Option JSVal) (graphiql : Bool) (method : String)
    (urlQ data : ParamSource) (acceptsHtml : Bool) (p : GraphQLParams)
    (resp : Response FErr)
    (hm : method = "GET" ∨ method = "POST")
    (hp : getGraphQLParams jsonParse urlQ data = .ok p)
    (hq : truthy p.query = true)
    (hrun : runQuery E method urlQ data graphiql acceptsHtml p = .early resp) :
    graphqlHTTP E jsonParse graphiql method urlQ acceptsHtml (.ok data) = resp := by
  unfold graphqlHTTP runCallback callbackBody
  rw [method_guard_pass hm]
  simp [hp, hq, hrun]

/-- The then handler assigns the status by the own-data-key rule. -/
theorem thenStage_status_eq {Doc Err FErr : Type} (E : Engine Doc Err FErr)
    (graphiql acceptsHtml : Bool) (urlQ data : ParamSource)
    (p : GraphQLParams) (r : JSResult Err) :
    (thenStage E graphiql acceptsHtml urlQ data p r).status =
      if r.hasDataKey then 200 else 400 := by
  unfold thenStage
  split <;> split <;> rfl

/-- The then handler carries the formatted errors of its result in the body,
in both the JSON and the GraphiQL form. -/
theorem thenStage_bodyErrors {Doc Err FErr : Type} (E : Engine Doc Err FErr)
    (graphiql acceptsHtml : Bool) (urlQ data : ParamSource)
    (p : GraphQLParams) (r : JSResult Err) :
    bodyErrors (thenStage E graphiql acceptsHtml urlQ data p r).body =
      r.errors.map (List.map E.formatError) := by
  unfold thenStage
  split <;> split <;> rfl

/-- Concrete engine for witnesses: parse and validate succeed, the operation
resolves to a mutation, execute returns a result with a data key; errors
format to 1 and HttpError values format to their status. -/
def wEngine : Engine Unit Unit Nat :=
  { parse := fun _ => .ok ()
    validate := fun _ => .ok []
    getOperationAST := fun _ _ => .ok (some "mutation")
    execute := fun _ _ _ => .ok { hasDataKey := true, dataVal := .numv 7, errors := none }
    formatError := fun _ => 1
    formatHttpError := fun e => e.status }

/-- URL parameters holding only a query text. -/
def wUrl : ParamSource :=
  { query := .strv "queryText", vars := .undef, operationName := .undef, raw := .undef }

/-- An all-absent parameter source. -/
def wData : ParamSource :=
  { query := .undef, vars := .undef, operationName := .undef, raw := .undef }

/-- A JSON.parse collaborator that fails on every string. -/
def wJson : String → Option JSVal := fun _ => none

/-- C1: on a GET request whose document resolves to a non-query operation,
when GraphiQL output is unavailable (disabled, raw present, or HTML not
preferred, that is, the negotiated condition is false), the middleware
answers 405 with the Allow header POST and a single-element formatted error
list as body, and this holds for every execute collaborator, so the
operation is never executed. -/
theorem get_nonquery_rejected {Doc Err FErr : Type} (E : Engine Doc Err FErr)
    (ex : Doc → JSVal → JSVal → Except Err (JSResult Err))
    (jsonParse : String → Option JSVal) (graphiql acceptsHtml : Bool)
    (urlQ data : ParamSource) (p : GraphQLParams) (doc : Doc) (opKind : String)
    (hp : getGraphQLParams jsonParse urlQ data = .ok p)
    (hq : truthy p.query = true)
    (hparse : E.parse p.query = .ok doc)
    (hval : E.validate doc = .ok [])
    (hop : E.getOperationAST doc p.operationName = .ok (some opKind))
    (hnq : opKind ≠ "query")
    (hni : (graphiql && canDisplayGraphiQL urlQ data acceptsHtml) = false) :
    graphqlHTTP { E with execute := ex } jsonParse graphiql "GET" urlQ acceptsHtml
        (.ok data) =
      { status := 405, allow := some "POST", contentType := "application/json",
        body := .jsonBody
          { hasDataKey := false, dataVal := .undef,
            errors := some [E.formatHttpError
              { status := 405,
                message := "Can only perform a " ++ opKind ++
                  " operation from a POST request." }] } } := by
  have hrun : runQuery { E with execute := ex } "GET" urlQ data graphiql acceptsHtml p =
      .early (sendError E.formatHttpError (some "POST")
        { status := 405,
          message := "Can only perform a " ++ opKind ++
            " operation from a POST request." }) := by
    unfold runQuery
    simp [hparse, hval, hop, hnq, hni]
  rw [run_early_response { E with execute := ex } jsonParse graphiql "GET" urlQ data
    acceptsHtml p _ (Or.inl rfl) hp hq hrun]
  rfl

/-- C1 witness: the 405 rejection at a concrete GET mutation request with
GraphiQL disabled. -/
theorem get_nonquery_rejected_witness :
    graphqlHTTP wEngine wJson false "GET" wUrl false (.ok wData) =
      { status := 405, allow := some "POST", contentType := "application/json",
        body := .jsonBody
          { hasDataKey := false, dataVal := .undef, errors := some [405] } } :=
  get_nonquery_rejected wEngine wEngine.execute wJson false false wUrl wData
    { query := .strv "queryText", vars := .undef, operationName := .undef }
    () "mutation" rfl rfl rfl rfl rfl (by decide) rfl

/-- Concrete engine whose operation lookup cannot resolve an operation. -/
def wEngineNoOp : Engine Unit Unit Nat :=
  { wEngine with getOperationAST := fun _ _ => .ok none }

/-- C2 counterexample: on a GET request with GraphiQL unavailable whose
operation lookup resolves to absent, the code does not fail with 405 and
does not skip execution; it executes the document and answers 200 with the
execute result. -/
theorem get_oplookup_absent_claim_false :
    (graphqlHTTP wEngineNoOp wJson false "GET" wUrl false (.ok wData)).status = 200 ∧
    (graphqlHTTP wEngineNoOp wJson false "GET" wUrl false (.ok wData)).status ≠ 405 ∧
    (graphqlHTTP wEngineNoOp wJson false "GET" wUrl false (.ok wData)).body =
      .jsonBody { hasDataKey := true, dataVal := .numv 7, errors := none } := by
  refine ⟨rfl, by decide, rfl⟩

/-- C2 amended: when the operation lookup returns absent on a GET request
that has passed parse and validation, the GET operation-kind guard is
skipped entirely: the document is executed and the response is the ordinary
post-execution formatting of the execute result. -/
theorem get_oplookup_absent_proceeds {Doc Err FErr : Type} (E : Engine Doc Err FErr)
    (jsonParse : String → Option JSVal) (graphiql acceptsHtml : Bool)
    (urlQ data : ParamSource) (p : GraphQLParams) (doc : Doc) (r : JSResult Err)
    (hp : getGraphQLParams jsonParse urlQ data = .ok p)
    (hq : truthy p.query = true)
    (hparse : E.parse p.query = .ok doc)
    (hval : E.validate doc = .ok [])
    (hop : E.getOperationAST doc p.operationName = .ok none)
    (hexec : E.execute doc p.vars p.operationName = .ok r) :
    graphqlHTTP E jsonParse graphiql "GET" urlQ acceptsHtml (.ok data) =
      thenStage E graphiql acceptsHtml urlQ data p r := by
  have hrun : runQuery E "GET" urlQ data graphiql acceptsHtml p = .result r := by
    unfold runQuery
    simp [hparse, hval, hop, hexec]
  exact run_result_response E jsonParse graphiql "GET" urlQ data acceptsHtml p r
    (Or.inl rfl) hp hq hrun

/-- C2 amended witness: the concrete absent-lookup GET request executes and
is formatted by the then handler. -/
theorem get_oplookup_absent_proceeds_witness :
    graphqlHTTP wEngineNoOp wJson false "GET" wUrl false (.ok wData) =
      thenStage wEngineNoOp false false wUrl wData
        { query := .strv "queryText", vars := .undef, operationName := .undef }
        { hasDataKey := true, dataVal := .numv 7, errors := none } :=
  get_oplookup_absent_proceeds wEngineNoOp wJson false false wUrl wData
    { query := .strv "queryText", vars := .undef, operationName := .undef }
    () { hasDataKey := true, dataVal := .numv 7, errors := none }
    rfl rfl rfl rfl rfl rfl

/-- Extraction when the merged variables value is not a truthy string: all
three fields are the plain truthy-first merges. -/
theorem getGraphQLParams_not_string (jsonParse : String → Option JSVal)
    (urlQ data : ParamSource)
    (h : (truthy (jsOr urlQ.vars data.vars) && isString (jsOr urlQ.vars data.vars)) = false) :
    getGraphQLParams jsonParse urlQ data =
      .ok { query := jsOr urlQ.query data.query,
            vars := jsOr urlQ.vars data.vars,
            operationName := jsOr urlQ.operationName data.operationName } := by
  unfold getGraphQLParams
  simp only [h]
  split
  · simp_all
  · rfl

/-- Extraction when the merged variables value is a truthy (nonempty)
string: the string goes through JSON.parse, success replacing the value and
failure throwing the invalid-variables error. -/
theorem getGraphQLParams_string (jsonParse : String → Option JSVal)
    (urlQ data : ParamSource) (s : String)
    (hv : jsOr urlQ.vars data.vars = .strv s) (hs : s ≠ "") :
    getGraphQLParams jsonParse urlQ data =
      match jsonParse s with
      | some v =>
        .ok { query := jsOr urlQ.query data.query, vars := v,
              operationName := jsOr urlQ.operationName data.operationName }
      | none => .error { status := 400, message := "Variables are invalid JSON." } := by
  have ht : (truthy (JSVal.strv s) && isString (JSVal.strv s)) = true := by
    simp [truthy, isString, hs]
  unfold getGraphQLParams
  simp [hv, ht]

/-- URL parameters with a present but empty (hence falsy) query value. -/
def wUrlEmptyQ : ParamSource :=
  { query := .strv "", vars := .undef, operationName := .undef, raw := .undef }

/-- Body parameters holding a query text. -/
def wDataQ : ParamSource :=
  { query := .strv "bodyQuery", vars := .undef, operationName := .undef, raw := .undef }

/-- C3 counterexample: with a present but empty URL query value and a body
query value, extraction returns the body value, so the first non-absent
value does not always win: merging tests truthiness, not presence. -/
theorem url_precedence_claim_false :
    (getGraphQLParams wJson wUrlEmptyQ wDataQ).map (fun p => p.query) =
      .ok (JSVal.strv "bodyQuery") ∧
    wUrlEmptyQ.query ≠ JSVal.undef ∧
    JSVal.strv "bodyQuery" ≠ wUrlEmptyQ.query := by
  refine ⟨rfl, by decide, by decide⟩

/-- C3 amended: extraction merges by truthiness, not presence: each of
query, operationName and (before JSON decoding) variables takes the URL
value exactly when that value is truthy, and the body value otherwise; a
truthy string variables value is then decoded. -/
theorem params_truthy_first (jsonParse : String → Option JSVal)
    (urlQ data : ParamSource) (p : GraphQLParams)
    (hp : getGraphQLParams jsonParse urlQ data = .ok p) :
    p.query = (if truthy urlQ.query then urlQ.query else data.query) ∧
    p.operationName =
      (if truthy urlQ.operationName then urlQ.operationName else data.operationName) ∧
    ((truthy (jsOr urlQ.vars data.vars) && isString (jsOr urlQ.vars data.vars)) = false →
      p.vars = jsOr urlQ.vars data.vars) ∧
    (∀ s, jsOr urlQ.vars data.vars = .strv s → s ≠ "" → jsonParse s = some p.vars) := by
  by_cases h : (truthy (jsOr urlQ.vars data.vars) && isString (jsOr urlQ.vars data.vars)) = true
  · obtain ⟨s, hv⟩ : ∃ t, jsOr urlQ.vars data.vars = .strv t := by
      rcases hvv : jsOr urlQ.vars data.vars with _ | _ | b | t | n | i <;>
        rw [hvv] at h <;> simp [truthy, isString] at h
      exact ⟨_, rfl⟩
    have hs : s ≠ "" := by
      rw [hv] at h
      simpa [truthy, isString] using h
    rw [getGraphQLParams_string jsonParse urlQ data s hv hs] at hp
    rcases hj : jsonParse s with _ | v <;> rw [hj] at hp
    · exact Except.noConfusion hp
    · have h2 : GraphQLParams.mk (jsOr urlQ.query data.query) v
          (jsOr urlQ.operationName data.operationName) = p := by
        injection hp
      subst h2
      refine ⟨by simp [jsOr], by simp [jsOr], fun hc => absurd h (by simp [hc]), ?_⟩
      intro s2 hv2 _
      rw [hv] at hv2
      cases hv2
      rw [hj]
  · have hcf : (truthy (jsOr urlQ.vars data.vars) && isString (jsOr urlQ.vars data.vars)) = false := by
      simpa using h
    rw [getGraphQLParams_not_string jsonParse urlQ data hcf] at hp
    have h2 : GraphQLParams.mk (jsOr urlQ.query data.query) (jsOr urlQ.vars data.vars)
        (jsOr urlQ.operationName data.operationName) = p := by
      injection hp
    subst h2
    refine ⟨by simp [jsOr], by simp [jsOr], fun _ => rfl, ?_⟩
    intro s2 hv2 hs2
    rw [hv2] at hcf
    simp [truthy, isString, hs2] at hcf

/-- JSON.parse collaborator returning a fixed object. -/
def wJsonObj : String → Option JSVal := fun _ => some (.obj 3)

/-- URL parameters holding only a variables string. -/
def wUrlVars : ParamSource :=
  { query := .undef, vars := .strv "vjson", operationName := .undef, raw := .undef }

/-- C3 amended witness: at a concrete input the extracted query is the
truthy-first merge and the variables string went through JSON.parse. -/
theorem params_truthy_first_witness :
    JSVal.strv "bodyQuery" =
      (if truthy wUrlVars.query then wUrlVars.query else wDataQ.query) ∧
    wJsonObj "vjson" = some (JSVal.obj 3) :=
  ⟨(params_truthy_first wJsonObj wUrlVars wDataQ
      { query := .strv "bodyQuery", vars := .obj 3, operationName := .undef } rfl).1,
   (params_truthy_first wJsonObj wUrlVars wDataQ
      { query := .strv "bodyQuery", vars := .obj 3, operationName := .undef } rfl).2.2.2
     "vjson" rfl (by decide)⟩

/-- Body parameters with a query text and an empty-string variables value. -/
def wDataVarsEmpty : ParamSource :=
  { query := .strv "queryText", vars := .strv "", operationName := .undef, raw := .undef }

/-- C4 counterexample: the resolved variables value is the empty string, a
string that is not valid JSON (the modelled JSON.parse fails on every
string, as JSON.parse throws on the empty string), yet the code skips the
decode because the value is falsy: the request executes and the response
has status 200, not 400. -/
theorem invalid_vars_claim_false :
    isString (jsOr wData.vars wDataVarsEmpty.vars) = true ∧
    wJson "" = none ∧
    (graphqlHTTP wEngine wJson false "POST" wData false (.ok wDataVarsEmpty)).status = 200 ∧
    (graphqlHTTP wEngine wJson false "POST" wData false (.ok wDataVarsEmpty)).status ≠ 400 := by
  refine ⟨rfl, rfl, rfl, by decide⟩

/-- C4 amended: when the resolved variables value is a truthy (nonempty)
string on which JSON.parse fails, the response is 400 with the single
formatted invalid-variables error, whatever the engine: no parse,
validation or execution happens. -/
theorem invalid_vars_rejected {Doc Err FErr : Type} (E : Engine Doc Err FErr)
    (jsonParse : String → Option JSVal) (graphiql : Bool) (method : String)
    (urlQ data : ParamSource) (acceptsHtml : Bool) (s : String)
    (hm : method = "GET" ∨ method = "POST")
    (hv : jsOr urlQ.vars data.vars = .strv s)
    (hs : s ≠ "")
    (hj : jsonParse s = none) :
    graphqlHTTP E jsonParse graphiql method urlQ acceptsHtml (.ok data) =
      { status := 400, allow := none, contentType := "application/json",
        body := .jsonBody
          { hasDataKey := false, dataVal := .undef,
            errors := some [E.formatHttpError
              { status := 400, message := "Variables are invalid JSON." }] } } := by
  have hg : getGraphQLParams jsonParse urlQ data =
      .error { status := 400, message := "Variables are invalid JSON." } := by
    rw [getGraphQLParams_string jsonParse urlQ data s hv hs, hj]
  unfold graphqlHTTP runCallback callbackBody
  rw [method_guard_pass hm]
  simp [hg, sendError]

/-- C4 amended witness: the concrete nonempty invalid variables string is
answered 400 with the single formatted error. -/
theorem invalid_vars_rejected_witness :
    graphqlHTTP wEngine wJson false "POST" wUrlVars false (.ok wData) =
      { status := 400, allow := none, contentType := "application/json",
        body := .jsonBody
          { hasDataKey := false, dataVal := .undef, errors := some [400] } } :=
  invalid_vars_rejected wEngine wJson false "POST" wUrlVars wData false "vjson"
    (Or.inr rfl) rfl (by decide) rfl

/-- C5: with an absent or empty query, the middleware renders the empty
GraphiQL shell as text/html when GraphiQL negotiation succeeds, and
otherwise answers 400 with the single formatted must-provide-query error. -/
theorem missing_query_handled {Doc Err FErr : Type} (E : Engine Doc Err FErr)
    (jsonParse : String → Option JSVal) (graphiql : Bool) (method : String)
    (urlQ data : ParamSource) (acceptsHtml : Bool) (p : GraphQLParams)
    (hm : method = "GET" ∨ method = "POST")
    (hp : getGraphQLParams jsonParse urlQ data = .ok p)
    (hq : p.query = .undef ∨ p.query = .strv "") :
    ((graphiql && canDisplayGraphiQL urlQ data acceptsHtml) = false →
      graphqlHTTP E jsonParse graphiql method urlQ acceptsHtml (.ok data) =
        { status := 400, allow := none, contentType := "application/json",
          body := .jsonBody
            { hasDataKey := false, dataVal := .undef,
              errors := some [E.formatHttpError
                { status := 400, message := "Must provide query string." }] } }) ∧
    ((graphiql && canDisplayGraphiQL urlQ data acceptsHtml) = true →
      graphqlHTTP E jsonParse graphiql method urlQ acceptsHtml (.ok data) =
        { status := 200, allow := none, contentType := "text/html",
          body := .htmlBody .emptyShell }) := by
  have hqf : truthy p.query = false := by
    rcases hq with h | h <;> rw [h] <;> rfl
  constructor <;> intro hg
  all_goals
    unfold graphqlHTTP runCallback callbackBody
    rw [method_guard_pass hm]
    simp [hp, hqf, hg, sendError]

/-- C5 witness: a concrete request with no query anywhere and GraphiQL
disabled is answered 400 with the single formatted error. -/
theorem missing_query_handled_witness :
    graphqlHTTP wEngine wJson false "POST" wData false (.ok wData) =
      { status := 400, allow := none, contentType := "application/json",
        body := .jsonBody
          { hasDataKey := false, dataVal := .undef, errors := some [400] } } :=
  (missing_query_handled wEngine wJson false "POST" wData wData false
    { query := .undef, vars := .undef, operationName := .undef }
    (Or.inr rfl) rfl (Or.inl rfl)).1 rfl

/-- Concrete engine returning one validation error. -/
def wEngineInvalid : Engine Unit Unit Nat :=
  { wEngine with validate := fun _ => .ok [()] }

/-- C6: when validation yields a nonempty error list, the response has
status 400 and its body carries exactly those errors mapped through
formatError, and this holds for every operation lookup and execute
collaborator, so execution is never attempted. -/
theorem validation_failure_short_circuits {Doc Err FErr : Type} (E : Engine Doc Err FErr)
    (gop : Doc → JSVal → Except Err (Option String))
    (ex : Doc → JSVal → JSVal → Except Err (JSResult Err))
    (jsonParse : String → Option JSVal) (graphiql : Bool) (method : String)
    (urlQ data : ParamSource) (acceptsHtml : Bool) (p : GraphQLParams)
    (doc : Doc) (verrs : List Err)
    (hm : method = "GET" ∨ method = "POST")
    (hp : getGraphQLParams jsonParse urlQ data = .ok p)
    (hq : truthy p.query = true)
    (hparse : E.parse p.query = .ok doc)
    (hval : E.validate doc = .ok verrs)
    (hne : verrs ≠ []) :
    (graphqlHTTP { E with getOperationAST := gop, execute := ex } jsonParse graphiql
        method urlQ acceptsHtml (.ok data)).status = 400 ∧
    bodyErrors (graphqlHTTP { E with getOperationAST := gop, execute := ex } jsonParse
        graphiql method urlQ acceptsHtml (.ok data)).body =
      some (verrs.map E.formatError) := by
  have hlen : verrs.length > 0 := List.length_pos.mpr hne
  have hrun : runQuery { E with getOperationAST := gop, execute := ex } method urlQ data
      graphiql acceptsHtml p =
      .result { hasDataKey := false, dataVal := .undef, errors := some verrs } := by
    unfold runQuery
    simp [hparse, hval, hlen]
  rw [run_result_response _ jsonParse graphiql method urlQ data acceptsHtml p _ hm hp hq hrun]
  rw [thenStage_status_eq, thenStage_bodyErrors]
  exact ⟨rfl, rfl⟩

/-- C6 witness: a concrete request whose validation fails is answered 400
carrying the formatted validation error. -/
theorem validation_failure_short_circuits_witness :
    (graphqlHTTP wEngineInvalid wJson false "POST" wUrl false (.ok wData)).status = 400 ∧
    bodyErrors (graphqlHTTP wEngineInvalid wJson false "POST" wUrl false (.ok wData)).body =
      some [1] :=
  validation_failure_short_circuits wEngineInvalid wEngineInvalid.getOperationAST
    wEngineInvalid.execute wJson false "POST" wUrl wData false
    { query := .strv "queryText", vars := .undef, operationName := .undef }
    () [()] (Or.inr rfl) rfl rfl rfl rfl (by decide)

/-- C7: a thrown error from parse, validate, the operation lookup, or
execute is caught at the promise boundary and becomes the same shape as an
engine-returned error list: the response is the ordinary then-handler
formatting of a single-element caught result, whose status is 400 by the
data-key rule and whose body carries the formatted caught error, never a
distinct protocol-level status and never an escaped exception. -/
theorem thrown_errors_caught {Doc Err FErr : Type} (E : Engine Doc Err FErr)
    (jsonParse : String → Option JSVal) (graphiql : Bool) (method : String)
    (urlQ data : ParamSource) (acceptsHtml : Bool) (p : GraphQLParams)
    (hm : method = "GET" ∨ method = "POST")
    (hp : getGraphQLParams jsonParse urlQ data = .ok p)
    (hq : truthy p.query = true) :
    (∀ e, E.parse p.query = .error e →
      graphqlHTTP E jsonParse graphiql method urlQ acceptsHtml (.ok data) =
        thenStage E graphiql acceptsHtml urlQ data p (caughtResult e)) ∧
    (∀ doc e, E.parse p.query = .ok doc → E.validate doc = .error e →
      graphqlHTTP E jsonParse graphiql method urlQ acceptsHtml (.ok data) =
        thenStage E graphiql acceptsHtml urlQ data p (caughtResult e)) ∧
    (∀ doc e, E.parse p.query = .ok doc → E.validate doc = .ok [] → method = "GET" →
      E.getOperationAST doc p.operationName = .error e →
      graphqlHTTP E jsonParse graphiql method urlQ acceptsHtml (.ok data) =
        thenStage E graphiql acceptsHtml urlQ data p (caughtResult e)) ∧
    (∀ doc e, E.parse p.query = .ok doc → E.validate doc = .ok [] →
      (method = "GET" →
        E.getOperationAST doc p.operationName = .ok none ∨
        E.getOperationAST doc p.operationName = .ok (some "query")) →
      E.execute doc p.vars p.operationName = .error e →
      graphqlHTTP E jsonParse graphiql method urlQ acceptsHtml (.ok data) =
        thenStage E graphiql acceptsHtml urlQ data p (caughtResult e)) ∧
    (∀ e, (thenStage E graphiql acceptsHtml urlQ data p (caughtResult e)).status = 400 ∧
      bodyErrors (thenStage E graphiql acceptsHtml urlQ data p (caughtResult e)).body =
        some [E.formatError e]) := by
  refine ⟨?_, ?_, ?_, ?_, ?_⟩
  · intro e he
    exact run_result_response E jsonParse graphiql method urlQ data acceptsHtml p _
      hm hp hq (by unfold runQuery; simp [he])
  · intro doc e hd he
    exact run_result_response E jsonParse graphiql method urlQ data acceptsHtml p _
      hm hp hq (by unfold runQuery; simp [hd, he])
  · intro doc e hd hv hmg he
    subst hmg
    exact run_result_response E jsonParse graphiql "GET" urlQ data acceptsHtml p _
      (Or.inl rfl) hp hq (by unfold runQuery; simp [hd, hv, he])
  · intro doc e hd hv hg he
    rcases hm with hmg | hmp
    · subst hmg
      rcases hg rfl with hnone | hquery
      · exact run_result_response E jsonParse graphiql "GET" urlQ data acceptsHtml p _
          (Or.inl rfl) hp hq (by unfold runQuery; simp [hd, hv, hnone, he])
      · exact run_result_response E jsonParse graphiql "GET" urlQ data acceptsHtml p _
          (Or.inl rfl) hp hq (by unfold runQuery; simp [hd, hv, hquery, he])
    · subst hmp
      exact run_result_response E jsonParse graphiql "POST" urlQ data acceptsHtml p _
        (Or.inr rfl) hp hq (by unfold runQuery; simp [hd, hv, he])
  · intro e
    rw [thenStage_status_eq, thenStage_bodyErrors]
    exact ⟨rfl, rfl⟩

/-- Concrete engine whose parse throws. -/
def wEngineParseFail : Engine Unit Unit Nat :=
  { wEngine with parse := fun _ => .error () }

/-- C7 witness: a concrete request whose parse throws is formatted by the
then handler as a single-element caught error result. -/
theorem thrown_errors_caught_witness :
    graphqlHTTP wEngineParseFail wJson false "POST" wUrl false (.ok wData) =
      thenStage wEngineParseFail false false wUrl wData
        { query := .strv "queryText", vars := .undef, operationName := .undef }
        (caughtResult ()) :=
  (thrown_errors_caught wEngineParseFail wJson false "POST" wUrl wData false
    { query := .strv "queryText", vars := .undef, operationName := .undef }
    (Or.inr rfl) rfl rfl).1 () rfl

/-- C8: the status the then handler assigns is 200 exactly when the result
has its own data key and 400 exactly when it does not, independent of the
value stored under the data key and of the errors list. -/
theorem status_from_data_key_presence {Doc Err FErr : Type} (E : Engine Doc Err FErr)
    (graphiql acceptsHtml : Bool) (urlQ data : ParamSource)
    (p : GraphQLParams) (r : JSResult Err) :
    ((thenStage E graphiql acceptsHtml urlQ data p r).status = 200 ↔
      r.hasDataKey = true) ∧
    ((thenStage E graphiql acceptsHtml urlQ data p r).status = 400 ↔
      r.hasDataKey = false) ∧
    (∀ v es, (thenStage E graphiql acceptsHtml urlQ data p
        { hasDataKey := r.hasDataKey, dataVal := v, errors := es }).status =
      (thenStage E graphiql acceptsHtml urlQ data p r).status) := by
  refine ⟨?_, ?_, ?_⟩
  · rw [thenStage_status_eq]
    cases r.hasDataKey <;> simp
  · rw [thenStage_status_eq]
    cases r.hasDataKey <;> simp
  · intro v es
    rw [thenStage_status_eq, thenStage_status_eq]

/-- When GraphiQL negotiation fails, the then handler sends JSON. -/
theorem thenStage_json {Doc Err FErr : Type} (E : Engine Doc Err FErr)
    (graphiql acceptsHtml : Bool) (urlQ data : ParamSource) (p : GraphQLParams)
    (hcond : (graphiql && canDisplayGraphiQL urlQ data acceptsHtml) = false)
    (r : JSResult Err) :
    (thenStage E graphiql acceptsHtml urlQ data p r).contentType =
      "application/json" := by
  unfold thenStage
  rw [hcond]
  simp

/-- When GraphiQL negotiation fails, any response sent from inside the
promise executor is JSON (the 405 rejection). -/
theorem runQuery_early_json {Doc Err FErr : Type} (E : Engine Doc Err FErr)
    (method : String) (urlQ data : ParamSource) (graphiql acceptsHtml : Bool)
    (p : GraphQLParams) (resp : Response FErr)
    (hcond : (graphiql && canDisplayGraphiQL urlQ data acceptsHtml) = false)
    (hrun : runQuery E method urlQ data graphiql acceptsHtml p = .early resp) :
    resp.contentType = "application/json" := by
  unfold runQuery at hrun
  rw [hcond] at hrun
  simp only [Bool.false_eq_true, if_false] at hrun
  repeat' split at hrun
  all_goals first
    | exact RunOut.noConfusion hrun
    | (injection hrun with h2; rw [← h2]; rfl)

/-- Parameters whose raw key is present with value false. -/
def wDataRawFalse : ParamSource :=
  { query := .undef, vars := .undef, operationName := .undef, raw := .boolv false }

/-- C9: GraphiQL negotiation succeeds exactly when neither source has a raw
key present (a presence test: even a raw valued false counts as present)
and HTML is preferred; and whenever a raw key is present or GraphiQL is
disabled, no decision point of the lifecycle answers HTML: the response of
the whole middleware is application/json. -/
theorem raw_presence_disables_graphiql {Doc Err FErr : Type} (E : Engine Doc Err FErr)
    (jsonParse : String → Option JSVal) (graphiql : Bool) (method : String)
    (urlQ data : ParamSource) (acceptsHtml : Bool)
    (h : urlQ.raw ≠ .undef ∨ data.raw ≠ .undef ∨ graphiql = false) :
    (canDisplayGraphiQL urlQ data acceptsHtml = true ↔
      (urlQ.raw = .undef ∧ data.raw = .undef ∧ acceptsHtml = true)) ∧
    (graphqlHTTP E jsonParse graphiql method urlQ acceptsHtml (.ok data)).contentType =
      "application/json" := by
  have hiff : canDisplayGraphiQL urlQ data acceptsHtml = true ↔
      (urlQ.raw = .undef ∧ data.raw = .undef ∧ acceptsHtml = true) := by
    unfold canDisplayGraphiQL
    cases acceptsHtml <;> simp [bne_iff_ne]
  refine ⟨hiff, ?_⟩
  have hcond : (graphiql && canDisplayGraphiQL urlQ data acceptsHtml) = false := by
    rcases h with h1 | h1 | h1
    · cases hcd : canDisplayGraphiQL urlQ data acceptsHtml
      · simp
      · exact absurd (hiff.mp hcd).1 h1
    · cases hcd : canDisplayGraphiQL urlQ data acceptsHtml
      · simp
      · exact absurd (hiff.mp hcd).2.1 h1
    · simp [h1]
  by_cases hbm : (method != "GET" && method != "POST") = true
  · unfold graphqlHTTP
    rw [hbm]
    simp [sendError]
  · have hm : method = "GET" ∨ method = "POST" := by
      by_contra hno
      push_neg at hno
      exact hbm (by simp [bne_iff_ne, hno.1, hno.2])
    cases hg : getGraphQLParams jsonParse urlQ data with
    | error e =>
      have hresp : graphqlHTTP E jsonParse graphiql method urlQ acceptsHtml (.ok data) =
          sendError E.formatHttpError none e := by
        unfold graphqlHTTP runCallback callbackBody
        rw [method_guard_pass hm]
        simp [hg]
      rw [hresp]
      rfl
    | ok p =>
      by_cases hq : truthy p.query = true
      · cases hrq : runQuery E method urlQ data graphiql acceptsHtml p with
        | early r2 =>
          rw [run_early_response E jsonParse graphiql method urlQ data acceptsHtml p r2
            hm hg hq hrq]
          exact runQuery_early_json E method urlQ data graphiql acceptsHtml p r2 hcond hrq
        | result r2 =>
          rw [run_result_response E jsonParse graphiql method urlQ data acceptsHtml p r2
            hm hg hq hrq]
          exact thenStage_json E graphiql acceptsHtml urlQ data p hcond r2
      · have hqf : truthy p.query = false := by
          simpa using hq
        have hresp : graphqlHTTP E jsonParse graphiql method urlQ acceptsHtml (.ok data) =
            sendError E.formatHttpError none
              { status := 400, message := "Must provide query string." } := by
          unfold graphqlHTTP runCallback callbackBody
          rw [method_guard_pass hm]
          simp [hg, hqf, hcond]
        rw [hresp]
        rfl

/-- C9 witness: a raw key valued false in the body makes negotiation fail
and the concrete response JSON even with GraphiQL enabled and HTML
preferred. -/
theorem raw_presence_disables_graphiql_witness :
    (canDisplayGraphiQL wUrl wDataRawFalse true = true ↔
      (wUrl.raw = JSVal.undef ∧ wDataRawFalse.raw = JSVal.undef ∧ true = true)) ∧
    (graphqlHTTP wEngine wJson true "GET" wUrl true (.ok wDataRawFalse)).contentType =
      "application/json" :=
  raw_presence_disables_graphiql wEngine wJson true "GET" wUrl wDataRawFalse true
    (Or.inr (Or.inl (by decide)))

/-- C10: when the post-execution result is rendered as the GraphiQL
document, the HTML response still takes its status from the own-data-key
rule: 200 with a data key, 400 with only errors. -/
theorem graphiql_render_keeps_status {Doc Err FErr : Type} (E : Engine Doc Err FErr)
    (jsonParse : String → Option JSVal) (graphiql : Bool) (method : String)
    (urlQ data : ParamSource) (acceptsHtml : Bool) (p : GraphQLParams)
    (doc : Doc) (r : JSResult Err)
    (hm : method = "GET" ∨ method = "POST")
    (hp : getGraphQLParams jsonParse urlQ data = .ok p)
    (hq : truthy p.query = true)
    (hparse : E.parse p.query = .ok doc)
    (hval : E.validate doc = .ok [])
    (hget : method = "GET" →
      E.getOperationAST doc p.operationName = .ok none ∨
      E.getOperationAST doc p.operationName = .ok (some "query"))
    (hexec : E.execute doc p.vars p.operationName = .ok r)
    (hgi : (graphiql && canDisplayGraphiQL urlQ data acceptsHtml) = true) :
    graphqlHTTP E jsonParse graphiql method urlQ acceptsHtml (.ok data) =
      { status := if r.hasDataKey then 200 else 400, allow := none,
        contentType := "text/html",
        body := .htmlBody (.full p.query p.vars
          { hasDataKey := r.hasDataKey, dataVal := r.dataVal,
            errors := r.errors.map (List.map E.formatError) }) } := by
  have hrun : runQuery E method urlQ data graphiql acceptsHtml p = .result r := by
    rcases hm with hmg | hmp
    · subst hmg
      rcases hget rfl with hnone | hquery
      · unfold runQuery
        simp [hparse, hval, hnone, hexec]
      · unfold runQuery
        simp [hparse, hval, hquery, hexec]
    · subst hmp
      unfold runQuery
      simp [hparse, hval, hexec]
  rw [run_result_response E jsonParse graphiql method urlQ data acceptsHtml p r
    hm hp hq hrun]
  unfold thenStage
  rw [hgi]
  simp

/-- Concrete engine whose execute resolves to an errors-only result. -/
def wEngineExecErrs : Engine Unit Unit Nat :=
  { wEngine with
      execute := fun _ _ _ =>
        .ok { hasDataKey := false, dataVal := .undef, errors := some [()] } }

/-- C10 witness: a concrete errors-only result rendered as GraphiQL is sent
as text/html with status 400. -/
theorem graphiql_render_keeps_status_witness :
    graphqlHTTP wEngineExecErrs wJson true "POST" wUrl true (.ok wData) =
      { status := 400, allow := none, contentType := "text/html",
        body := .htmlBody (.full (.strv "queryText") .undef
          { hasDataKey := false, dataVal := .undef, errors := some [1] }) } :=
  graphiql_render_keeps_status wEngineExecErrs wJson true "POST" wUrl wData true
    { query := .strv "queryText", vars := .undef, operationName := .undef } ()
    { hasDataKey := false, dataVal := .undef, errors := some [()] }
    (Or.inr rfl) rfl rfl rfl rfl (fun hc => absurd hc (by decide)) rfl rfl

end ExpressGraphQL
